import Mathlib

/-!
Verification model of the AFIREPLIT retrieval-filter-generate pipeline.

Each definition below is a shallow embedding of a function of the Python
sources under `server/scripts` (files `rag/utils.py`, `rag/filtering.py`,
`rag/retrieval.py`, `rag/config.py`, `query/search_chromadb.py`,
`query/run_rag_chat.py`).  Python floats are modelled as rationals (ℚ),
Python strings as `String`, Python tuples/lists as `List`, dict fields that
may be absent or non-string as `Option`.  External collaborators (OpenAI
client, Chroma collection, tiktoken, `re`, `json`) are modelled as
parameters or by enumerating the outcome shapes the code branches on.
-/

/-! ## Character-level helpers mirroring Python `str` methods

Python's `str.strip`, `str.lower`, `in` (substring test) and `str.replace`
are modelled on `List Char`.  The model covers the ASCII behaviour of these
methods, which is the range the pipeline's data uses. -/

/-- Model of Python `str.strip()`: drop whitespace from both ends. -/
def pyStrip (l : List Char) : List Char :=
  ((l.dropWhile Char.isWhitespace).reverse.dropWhile Char.isWhitespace).reverse

/-- Model of Python `str.lower()` for one character (ASCII). -/
def lowerChar (c : Char) : Char :=
  if 'A' ≤ c ∧ c ≤ 'Z' then Char.ofNat (c.toNat + 32) else c

/-- Model of Python `str.lower()` (ASCII). -/
def pyLower (s : String) : String := String.mk (s.toList.map lowerChar)

/-- Model of Python `str.strip()` on `String`. -/
def pyStripS (s : String) : String := String.mk (pyStrip s.toList)

/-- Whether `needle` occurs at the head of `hay`. -/
def startsWithL (needle hay : List Char) : Bool :=
  match needle, hay with
  | [], _ => true
  | _ :: _, [] => false
  | a :: as, b :: bs => a == b && startsWithL as bs

/-- Model of Python `needle in hay` (substring containment). -/
def containsSub (hay needle : List Char) : Bool :=
  match hay with
  | [] => needle.isEmpty
  | _ :: rest => startsWithL needle hay || containsSub rest needle

/-- Fuel-driven worker for `removeAll`; the fuel starts at the haystack
length, which bounds the number of steps, so the recursion is structural. -/
def removeAllGo (needle : List Char) : ℕ → List Char → List Char
  | 0, hay => hay
  | fuel + 1, hay =>
    match hay with
    | [] => []
    | c :: rest =>
      if needle ≠ [] ∧ startsWithL needle hay then
        removeAllGo needle fuel (hay.drop needle.length)
      else
        c :: removeAllGo needle fuel rest

/-- Model of Python `hay.replace(needle, "")`: remove every (left-to-right,
non-overlapping) occurrence of `needle`. -/
def removeAll (needle hay : List Char) : List Char :=
  removeAllGo needle hay.length hay

/-- Model of Python `str.split('.')`; like Python, `"".split('.') == [""]`
and separators at the ends produce empty fields. -/
def splitDot : List Char → List (List Char)
  | [] => [[]]
  | c :: rest =>
    if c = '.' then [] :: splitDot rest
    else
      match splitDot rest with
      | [] => [[c]]
      | t :: ts => (c :: t) :: ts

/-! ## Data model

`Passage` models the result dicts flowing through the pipeline
(`{id, text, metadata, similarity_score}`); fields the code reads through
`dict.get` with a default are `Option`s.  `PMeta` models the metadata keys
the studied functions read (`paragraph`, `afi_number`); a key that is
missing or holds a non-string value is `none` (the sources guard every read
with `isinstance(..., str)`). -/

structure PMeta where
  paragraph : Option String
  afi_number : Option String
deriving DecidableEq

structure Passage where
  id : Option String
  text : String
  metadata : PMeta
  similarity_score : Option ℚ
deriving DecidableEq

/-- Model of `item.get("similarity_score", 0.0)` (used throughout). -/
def simOf (p : Passage) : ℚ := p.similarity_score.getD 0

/-- Ordering relation used to model Python's stable
`sorted(..., key=similarity, reverse=True)`: `a` may precede `b`
iff its similarity is at least `b`'s.  `List.insertionSort` with this
relation is exactly a stable descending sort. -/
def seedGE (a b : Passage) : Prop := simOf b ≤ simOf a

instance : DecidableRel seedGE := fun a b => inferInstanceAs (Decidable (simOf b ≤ simOf a))

instance : IsTotal Passage seedGE := ⟨fun a b => le_total (simOf b) (simOf a)⟩

instance : IsTrans Passage seedGE := ⟨fun _ _ _ h1 h2 => le_trans h2 h1⟩

/-! ## query/search_chromadb.py -/

/-- The annotation suffixes `normalize_paragraph_parts` removes, in source
order (search_chromadb.py lines 64-67). -/
def paragraph_markers : List String :=
  ["(Added)", "(Added-ANG)", "(T-0)", "(T-1)", "(T-2)", "(T-3)", "(Mandatory)"]

/-- Embedding of `normalize_paragraph_parts` (search_chromadb.py lines
60-76): strip, remove annotation suffixes, split on dots, strip each token,
drop characters outside `[0-9A-Za-z-]`, and drop empty tokens.
`Char.isAlphanum` matches the ASCII regex class used by the source. -/
def normalize_paragraph_parts (paragraph : String) : List String :=
  let cleaned := paragraph_markers.foldl (fun acc m => removeAll m.toList acc)
    (pyStrip paragraph.toList)
  (splitDot cleaned).filterMap (fun raw =>
    let token := pyStrip raw
    if token = [] then none
    else
      let kept := token.filter (fun c => c.isAlphanum || c == '-')
      if kept = [] then none else some (String.mk kept))

/-- Embedding of `is_descendant` (search_chromadb.py lines 79-84). -/
def is_descendant (candidate ancestor : List String) : Bool :=
  if ancestor = [] then false
  else if candidate.length ≤ ancestor.length then candidate == ancestor
  else candidate.take ancestor.length == ancestor

/-- Embedding of the `ParagraphEntry` dataclass (search_chromadb.py lines
25-43); the `id` is a string (non-string rows are dropped by
`load_afi_entries` before construction). -/
structure ParagraphEntry where
  id : String
  text : String
  metadata : PMeta
deriving DecidableEq

/-- Embedding of the `ParagraphEntry.paragraph_id` property: the stripped
`metadata["paragraph"]` when it is a string, else `none`. -/
def paragraph_id (e : ParagraphEntry) : Option String :=
  e.metadata.paragraph.map pyStripS

/-- Strict lexicographic order on `List String`, as Python compares tuples
of strings. -/
def listStrLtB : List String → List String → Bool
  | _, [] => false
  | [], _ :: _ => true
  | a :: as, b :: bs => if a < b then true else if a = b then listStrLtB as bs else false

/-- Sort key of `load_afi_entries` (search_chromadb.py lines 106-109):
`(len(parts), parts, paragraph_id or "zzzz")`. -/
def entry_sort_key (e : ParagraphEntry) : ℕ × List String × String :=
  let pid := match paragraph_id e with
    | some s => if s = "" then "zzzz" else s
    | none => "zzzz"
  let parts := normalize_paragraph_parts pid
  (parts.length, parts, pid)

/-- Lexicographic "less or equal" on the sort-key triples, i.e. Python's
tuple comparison as used by `entries.sort(key=sort_key)`. -/
def entryKeyLe (a b : ℕ × List String × String) : Bool :=
  if a.1 ≠ b.1 then decide (a.1 < b.1)
  else if a.2.1 ≠ b.2.1 then listStrLtB a.2.1 b.2.1
  else decide (a.2.2 ≤ b.2.2)

/-- Relation form of `entryKeyLe` for `List.insertionSort`, which models
Python's stable `list.sort(key=...)`. -/
def entryLe (a b : ParagraphEntry) : Prop :=
  entryKeyLe (entry_sort_key a) (entry_sort_key b) = true

instance : DecidableRel entryLe :=
  fun a b =>
    inferInstanceAs (Decidable (entryKeyLe (entry_sort_key a) (entry_sort_key b) = true))

/-- Embedding of `load_afi_entries` (search_chromadb.py lines 87-112): the
raw `collection.get` rows for one document (already shaped as
`ParagraphEntry`, mirroring the `isinstance` row filter) sorted by
`entry_sort_key`. -/
def load_afi_entries (raw : List ParagraphEntry) : List ParagraphEntry :=
  List.insertionSort entryLe raw

/-- Depth of a candidate below a seed:
`max(len(candidate_tokens) - len(seed_tokens), 0)`
(search_chromadb.py line 174). -/
def depthOf (cand anc : List String) : ℤ :=
  max ((cand.length : ℤ) - (anc.length : ℤ)) 0

/-- The expanded passage appended for entry `e` (search_chromadb.py lines
180-190): similarity decayed by `min(depth*0.01, 0.15)`, floored at 0. -/
def mkExpanded (seed_sim : ℚ) (depth : ℤ) (e : ParagraphEntry) : Passage :=
  let similarity_penalty : ℚ := min ((depth : ℚ) * (1/100)) (15/100)
  ⟨some e.id, e.text, e.metadata, some (max (seed_sim - similarity_penalty) 0)⟩

/-- State threaded through `expand_with_descendants`: the `seen_ids` set
(as a list, membership only) and the `expanded` output list. -/
structure ExpState where
  seen : List String
  expanded : List Passage
deriving DecidableEq

/-- One iteration of the inner entry loop of `expand_with_descendants`
(search_chromadb.py lines 158-191). -/
def processEntry (max_depth : ℤ) (anc_parts : List String) (seed_sim : ℚ)
    (st : ExpState) (e : ParagraphEntry) : ExpState :=
  match paragraph_id e with
  | none => st
  | some cand_para =>
    if cand_para = "" then st
    else
      let cand_parts := normalize_paragraph_parts cand_para
      if cand_parts = [] then st
      else if ¬ is_descendant cand_parts anc_parts then st
      else if e.id ∈ st.seen then st
      else if depthOf cand_parts anc_parts > max_depth then st
      else ⟨st.seen ++ [e.id],
            st.expanded ++ [mkExpanded seed_sim (depthOf cand_parts anc_parts) e]⟩

/-- One iteration of the outer seed loop of `expand_with_descendants`
(search_chromadb.py lines 132-191).  The per-document cache `afi_cache` is
semantically the pure function `load_afi_entries ∘ collGet`, so it is not
modelled as state. -/
def processSeed (collGet : String → List ParagraphEntry) (max_depth : ℤ)
    (st : ExpState) (seed : Passage) : ExpState :=
  let st1 : ExpState :=
    match seed.id with
    | some sid => if sid ∈ st.seen then st else ⟨st.seen ++ [sid], st.expanded ++ [seed]⟩
    | none => st
  match seed.metadata.paragraph, seed.metadata.afi_number with
  | some para, some afi =>
    if para = "" ∨ afi = "" then st1
    else
      let anc_parts := normalize_paragraph_parts para
      if anc_parts = [] then st1
      else (load_afi_entries (collGet afi)).foldl
        (processEntry max_depth anc_parts (simOf seed)) st1
  | _, _ => st1

/-- Embedding of `expand_with_descendants` (search_chromadb.py lines
115-196).  `collGet afi` models `collection.get(where={"afi_number": afi})`
already shaped as entries; seeds are processed in stable descending
similarity order, exactly the source's `sorted(..., reverse=True)`. -/
def expand_with_descendants (collGet : String → List ParagraphEntry)
    (seeds : List Passage) (max_depth : ℤ) : List Passage :=
  ((List.insertionSort seedGE seeds).foldl (processSeed collGet max_depth)
    ⟨[], []⟩).expanded

/-! ## rag/retrieval.py -/

/-- Embedding of `RetrievalEngine._convert_distance_to_similarity`
(retrieval.py lines 200-209); `metric` is the detected distance metric
string and `none` models a missing distance. -/
def convert_distance_to_similarity (metric : String) (distance : Option ℚ) : ℚ :=
  match distance with
  | none => 0
  | some d =>
    if metric = "cosine" ∨ metric = "ip" then 1 - d
    else if metric = "l2" ∨ metric = "euclidean" then 1 / (1 + max d 0)
    else 1 - d

/-- The similarity value `search_documents` actually uses for a hit
(retrieval.py lines 147-156): the converted distance with negative results
clamped to 0 — and nothing clamping results above 1. -/
def similarity_used_by_search (metric : String) (distance : Option ℚ) : ℚ :=
  if convert_distance_to_similarity metric distance < 0 then 0
  else convert_distance_to_similarity metric distance

/-- Embedding of `RetrievalEngine._is_content_useful` (retrieval.py lines
91-116).  The configured TOC/header regexes are modelled as predicates on
the lowered, stripped text (one per `re.match(pattern, text_lower)` call),
and `important_keywords` are the already-lowercased configured keywords
(the constructor lowercases them, retrieval.py line 19). -/
def is_content_useful (toc_patterns : List (String → Bool))
    (important_keywords : List String) (text : String) : Bool :=
  if text = "" ∨ (pyStrip text.toList).length < 10 then false
  else
    let text_lower := pyStripS (pyLower text)
    if toc_patterns.any (fun pat => pat text_lower) then false
    else if important_keywords.any (fun kw => containsSub text_lower.toList kw.toList) then
      true
    else if (pyStrip text.toList).length < 30 then false
    else if (text.toList.filter Char.isAlpha).length < 10 then false
    else true

/-! ## rag/filtering.py

The relevance-filter model call is external; the code branches on the shape
of its outcome, which is enumerated by `FilterResp`: the request raised
(`callFailed`), the stripped answer was empty (`emptyContent`),
`json.loads` raised (`invalidJson`), or it produced a value — a list whose
items are integers or not (`PyItem`), or a non-list (`PyJson.nonList`).
Per the generation-service contract the answer, when present, is text. -/

inductive PyItem
  | int (n : ℤ)
  | nonInt
deriving DecidableEq

inductive PyJson
  | arr (items : List PyItem)
  | nonList
deriving DecidableEq

inductive FilterResp
  | callFailed
  | emptyContent
  | invalidJson
  | jsonValue (v : PyJson)
deriving DecidableEq

/-- Embedding of `RelevanceFilter._similarity_fallback` (filtering.py lines
62-82): stable descending sort by similarity, keep those at or above
`max(0, filter_min_similarity)` capped at 3, else the top `min(3, len)`. -/
def RelevanceFilter.similarity_fallback (filter_min_similarity : ℚ)
    (search_results : List Passage) : List Passage :=
  if search_results = [] then []
  else
    let threshold := max 0 filter_min_similarity
    let sorted_results := List.insertionSort seedGE search_results
    let candidates := sorted_results.filter (fun r => decide (threshold ≤ simOf r))
    if candidates = [] then sorted_results.take (min 3 sorted_results.length)
    else
      let limit := min 3 candidates.length
      candidates.take (if limit = 0 then 1 else limit)

/-- Embedding of the index-validation loop of `RelevanceFilter.filter`
(filtering.py lines 133-142): fail on the first non-integer or out-of-range
item (the `raise` aborts the loop), deduplicate keeping first occurrence.
`acc` plays the role of `keep_indices`; membership in it coincides with the
`seen` set. -/
def parse_indices_go (n : ℤ) : List PyItem → List ℤ → Option (List ℤ)
  | [], acc => some acc
  | .nonInt :: _, _ => none
  | .int i :: rest, acc =>
    if ¬ (1 ≤ i ∧ i ≤ n) then none
    else if i ∈ acc then parse_indices_go n rest acc
    else parse_indices_go n rest (acc ++ [i])

/-- Embedding of `RelevanceFilter.filter` (filtering.py lines 84-168).
Every anomalous response shape routes to the similarity fallback; a parsed
index list is deduplicated, mapped to passages in response order, and then
floored by `max(0, filter_min_similarity)`. -/
def RelevanceFilter.filter (filter_min_similarity : ℚ)
    (search_results : List Passage) (resp : FilterResp) : List Passage :=
  if search_results = [] then []
  else
    match resp with
    | .callFailed => RelevanceFilter.similarity_fallback filter_min_similarity search_results
    | .emptyContent => RelevanceFilter.similarity_fallback filter_min_similarity search_results
    | .invalidJson => RelevanceFilter.similarity_fallback filter_min_similarity search_results
    | .jsonValue .nonList =>
      RelevanceFilter.similarity_fallback filter_min_similarity search_results
    | .jsonValue (.arr items) =>
      match parse_indices_go (search_results.length : ℤ) items [] with
      | none => RelevanceFilter.similarity_fallback filter_min_similarity search_results
      | some keep_indices =>
        let filtered_results := keep_indices.foldl (fun acc index =>
          if 1 ≤ index ∧ index ≤ (search_results.length : ℤ) then
            match search_results.get? (index - 1).toNat with
            | some r => acc ++ [r]
            | none => acc
          else acc) []
        if filtered_results = [] then
          RelevanceFilter.similarity_fallback filter_min_similarity search_results
        else
          let threshold := max 0 filter_min_similarity
          let floored := filtered_results.filter (fun r => decide (threshold ≤ simOf r))
          if floored = [] then
            RelevanceFilter.similarity_fallback filter_min_similarity search_results
          else floored

/-! ## rag/utils.py -/

/-- Result triple of `truncate_context_if_needed`. -/
structure TruncateResult where
  text : List ℕ
  truncated : Bool
  token_count : ℕ
deriving DecidableEq

/-- Embedding of `truncate_context_if_needed` (utils.py lines 169-196) at
the token level: a text is represented by its tiktoken encoding (a token
list), `notice_tokens` is the encoding of `CONTEXT_TRUNCATION_NOTICE`, and
decode/encode round-trips are the identity on these token lists. -/
def truncate_context_if_needed (notice_tokens tokens : List ℕ)
    (token_limit : ℤ) : TruncateResult :=
  let token_count := tokens.length
  if token_limit ≤ 0 then ⟨tokens, false, token_count⟩
  else if (token_count : ℤ) ≤ token_limit then ⟨tokens, false, token_count⟩
  else if (notice_tokens.length : ℤ) ≥ token_limit then
    let truncated_tokens := tokens.take token_limit.toNat
    ⟨truncated_tokens, true, truncated_tokens.length⟩
  else
    let effective_limit : ℤ := max 0 (token_limit - (notice_tokens.length : ℤ))
    let truncated_tokens := tokens.take effective_limit.toNat
    ⟨truncated_tokens ++ notice_tokens, true,
      truncated_tokens.length + notice_tokens.length⟩

/-! ## query/run_rag_chat.py and rag/config.py

`RAGChatSystem.generate_rag_response` calls three names that do not exist:
`RetrievalEngine.detect_procedural_intent`, `RetrievalEngine.expand_with_neighbors`
and `RAGConfig.neighbor_hops`, and `RAGChatSystem.generate_answer` forwards a
`procedural_mode` keyword that `ResponseGenerator.generate` does not accept.
Python's attribute and keyword semantics are modelled explicitly: the names
defined by each class are listed (transcribed from the class bodies), an
attribute access outside the list is an `AttributeError`, and an unexpected
keyword is a `TypeError`. -/

/-- Methods and properties defined on `RetrievalEngine` (retrieval.py class
body). -/
def retrieval_engine_attrs : List String :=
  ["silent", "enhance_query_for_search", "get_query_embedding",
   "_is_content_useful", "search_documents", "_detect_distance_metric",
   "_convert_distance_to_similarity", "resolve_afi_filter"]

/-- Fields of the `@dataclass(slots=True)` `RAGConfig` (config.py lines
62-79); with `slots=True`, reading any other attribute raises
`AttributeError`. -/
def rag_config_slots : List String :=
  ["chroma_dir", "silent", "hybrid_mode", "min_similarity_score", "use_filter",
   "default_max_tokens", "context_token_multiplier", "env_path", "prompts",
   "query_tweaks", "important_keywords", "toc_patterns",
   "embedding_cache_size", "filter_min_similarity"]

/-- Keyword parameters of `ResponseGenerator.generate` (generation.py lines
177-184). -/
def response_generator_generate_params : List String :=
  ["user_query", "context", "model", "sources", "knowledge_only"]

/-- Keyword arguments `RAGChatSystem.generate_answer` always passes to
`ResponseGenerator.generate` (run_rag_chat.py lines 115-122). -/
def generate_answer_kwargs : List String :=
  ["user_query", "context", "model", "sources", "knowledge_only",
   "procedural_mode"]

inductive PyErr
  | attributeError (obj attr : String)
  | typeError (func kw : String)
deriving DecidableEq

/-- Python attribute lookup: defined attribute or `AttributeError`. -/
def getattr_check (attrs : List String) (obj attr : String) : Except PyErr Unit :=
  if attr ∈ attrs then .ok () else .error (.attributeError obj attr)

/-- Calling `ResponseGenerator.generate` through `generate_answer`: Python
rejects the call with a `TypeError` at the first keyword the callee does
not declare. -/
def generate_answer_call : Except PyErr Unit :=
  match generate_answer_kwargs.filter
      (fun k => ¬ response_generator_generate_params.contains k) with
  | [] => .ok ()
  | kw :: _ => .error (.typeError "ResponseGenerator.generate" kw)

/-- Timings dict of the empty-retrieval knowledge-fallback envelope
(run_rag_chat.py lines 214-217): only `total_ms` and `generation_ms`.
Values are `Option ℚ` so that a Python `None` (JSON null) is `none`. -/
def kf_timings (total_ms generation_ms : ℚ) : List (String × Option ℚ) :=
  [("total_ms", some total_ms), ("generation_ms", some generation_ms)]

/-- Timings dict of the filter-emptied knowledge-fallback envelope
(run_rag_chat.py lines 297-302): all four keys, all populated. -/
def filter_fallback_timings (total_ms retrieval_ms filter_ms generation_ms : ℚ) :
    List (String × Option ℚ) :=
  [("total_ms", some total_ms), ("retrieval_ms", some retrieval_ms),
   ("filter_ms", some filter_ms), ("generation_ms", some generation_ms)]

/-- Timings dict of the full-pipeline envelope (run_rag_chat.py lines
375-380): all four keys always present; `filter_ms` is `None` (null) when
the relevance filter was skipped (`filter_duration_ms = None`, line 251). -/
def full_timings (total_ms retrieval_ms : ℚ) (filter_ms : Option ℚ)
    (generation_ms : ℚ) : List (String × Option ℚ) :=
  [("total_ms", some total_ms), ("retrieval_ms", some retrieval_ms),
   ("filter_ms", filter_ms), ("generation_ms", some generation_ms)]

/-- The Response Envelope dict (keys of run_rag_chat.py lines 193-218;
`context_length_tokens` appears only in the two fallback envelopes and is 0
there). -/
structure Envelope where
  success : Bool
  query : String
  response : String
  answer : String
  raw_answer : String
  sources : List Passage
  context : List Passage
  search_results_count : ℕ
  filtered_results_count : ℕ
  model : String
  model_used : String
  embedding_model : String
  hybrid_mode : Bool
  relevance_filter_fallback : Bool
  context_truncated : Bool
  context_length : ℕ
  context_length_tokens : ℕ
  context_token_limit : ℤ
  knowledge_fallback : Bool
  request_id : String
  timings : List (String × Option ℚ)
deriving DecidableEq

/-- The empty-retrieval knowledge-fallback envelope literal (run_rag_chat.py
lines 193-218). -/
def knowledge_fallback_envelope (user_query generated_answer generation_model_used
    request_id : String) (hybrid_mode : Bool) (context_token_limit : ℤ)
    (total_ms generation_ms : ℚ) : Envelope :=
  { success := true
    query := user_query
    response := generated_answer
    answer := generated_answer
    raw_answer := generated_answer
    sources := []
    context := []
    search_results_count := 0
    filtered_results_count := 0
    model := generation_model_used
    model_used := generation_model_used
    embedding_model := "text-embedding-3-small"
    hybrid_mode := hybrid_mode
    relevance_filter_fallback := false
    context_truncated := false
    context_length := 0
    context_length_tokens := 0
    context_token_limit := context_token_limit
    knowledge_fallback := true
    request_id := request_id
    timings := kf_timings total_ms generation_ms }

/-- Embedding of `RAGChatSystem.generate_rag_response` (run_rag_chat.py
lines 140-381) after retrieval has produced `search_results`.  On the empty
branch the code calls `generate_answer`, which forwards the undeclared
`procedural_mode` keyword; on the non-empty branch the first statement is
`self.retrieval_engine.detect_procedural_intent(...)` (line 224), an
attribute `RetrievalEngine` does not define, so everything after that
lookup is unreachable and is abstracted as `rest`. -/
def generate_rag_response (user_query : String) (search_results : List Passage)
    (generated_answer generation_model_used request_id : String)
    (hybrid_mode : Bool) (context_token_limit : ℤ) (total_ms generation_ms : ℚ)
    (rest : Except PyErr Envelope) : Except PyErr Envelope :=
  if search_results = [] then
    match generate_answer_call with
    | .error e => .error e
    | .ok _ => .ok (knowledge_fallback_envelope user_query generated_answer
        generation_model_used request_id hybrid_mode context_token_limit
        total_ms generation_ms)
  else
    match getattr_check retrieval_engine_attrs "RetrievalEngine"
        "detect_procedural_intent" with
    | .error e => .error e
    | .ok _ => rest

/-! ## Derived predicates and concrete fixtures used by the theorems -/

/-- Index deduplication keeping the first occurrence, as the validation
loop of `RelevanceFilter.filter` performs it. -/
def py_dedup (l : List ℤ) : List ℤ :=
  l.foldl (fun acc i => if i ∈ acc then acc else acc ++ [i]) []

/-- A passage `p` is a legitimate product of hierarchy expansion: it was
built by `mkExpanded` from some seed and some entry of that seed's
document, the entry's normalized tokens extend the seed's
(`is_descendant`), its depth is within `max_depth`, and at `max_depth = 0`
its token sequence is exactly the seed's. -/
def ExpandedWithin (collGet : String → List ParagraphEntry) (seeds : List Passage)
    (max_depth : ℤ) (p : Passage) : Prop :=
  ∃ s ∈ seeds, ∃ para afi, s.metadata.paragraph = some para ∧
    s.metadata.afi_number = some afi ∧
    ∃ e ∈ load_afi_entries (collGet afi), ∃ cand_para,
      paragraph_id e = some cand_para ∧
      is_descendant (normalize_paragraph_parts cand_para)
        (normalize_paragraph_parts para) = true ∧
      depthOf (normalize_paragraph_parts cand_para)
        (normalize_paragraph_parts para) ≤ max_depth ∧
      (max_depth = 0 →
        normalize_paragraph_parts cand_para = normalize_paragraph_parts para) ∧
      p = mkExpanded (simOf s)
        (depthOf (normalize_paragraph_parts cand_para)
          (normalize_paragraph_parts para)) e

/-- Concrete passages used as inputs of the counterexample and witness
theorems. -/
def pA : Passage := ⟨some "a", "A", ⟨none, none⟩, some 4⟩

def pB : Passage := ⟨some "b", "B", ⟨none, none⟩, some 3⟩

def pC : Passage := ⟨some "c", "C", ⟨none, none⟩, some 2⟩

def pD : Passage := ⟨some "d", "D", ⟨none, none⟩, some 1⟩

/-- Model of the configured TOC regex `^chapter \d+` (the header-pattern
family the `toc_patterns` configuration carries, see the default list in
`rag_chat_openai.py` lines 116-123): `re.match` anchors at the start. -/
def chapter_pattern : String → Bool := fun s =>
  startsWithL "chapter ".toList s.toList && ((s.toList.drop 8).headD 'x').isDigit

/-- A chapter-header line that also contains configured important
keywords. -/
def chapter_header_text : String :=
  "chapter 3 aircraft grounding safety procedures overview"

/-- A seed whose document contains a second row with the same paragraph
identifier under a different id. -/
def dup_seed : Passage := ⟨some "s1", "seed", ⟨some "1.2", some "AFI1"⟩, some 0⟩

/-- A document row distinct from `dup_seed` but with the same normalized
paragraph tokens. -/
def dup_entry : ParagraphEntry := ⟨"e1", "dup", ⟨some "1.2", some "AFI1"⟩⟩

/-! # Theorems -/

/-- Invariant preservation along a left fold. -/
theorem foldl_inv {σ α : Type} {f : σ → α → σ} {P : σ → Prop} {Q : α → Prop}
    (l : List α) (hl : ∀ a ∈ l, Q a) (hf : ∀ st a, Q a → P st → P (f st a)) :
    ∀ st, P st → P (l.foldl f st) := by
  induction l with
  | nil => intro st hst; exact hst
  | cons a l ih =>
    intro st hst
    exact ih (fun x hx => hl x (List.mem_cons_of_mem a hx)) (f st a)
      (hf st a (hl a (List.mem_cons_self a l)) hst)

/-- C4: the claim fails on equal sequences and on the empty ancestor:
`is_descendant(A, A)` is `True` for the non-empty sequence `["1"]`, and for
the empty sequence `A = []`, a proper prefix of `B = ["1", "2"]`,
`is_descendant(B, A)` is `False`. -/
theorem C4_counterexample :
    is_descendant ["1"] ["1"] = true ∧
    (([] : List String) ≠ ["1", "2"] ∧ ([] : List String) <+: ["1", "2"] ∧
      is_descendant ["1", "2"] [] = false) := by decide

/-- C4 amended: for a NON-EMPTY proper prefix `A` of `B`,
`is_descendant(B, A)` is true and `is_descendant(A, B)` is false; for equal
sequences both directions equal "the sequence is non-empty" (the relation
is reflexive on non-empty sequences, hence neither irreflexive nor
asymmetric there); with an empty ancestor the relation is always false. -/
theorem C4_amended (A B : List String) :
    (A ≠ [] → A <+: B → A ≠ B →
      is_descendant B A = true ∧ is_descendant A B = false) ∧
    is_descendant A A = decide (A ≠ []) ∧
    is_descendant B [] = false := by
  refine ⟨fun hA hpre hne => ?_, ?_, by simp [is_descendant]⟩
  · have hlt : A.length < B.length := by
      rcases Nat.lt_or_ge A.length B.length with h | h
      · exact h
      · exact absurd (hpre.eq_of_length_le h) hne
    have hBne : B ≠ [] := by
      intro hB
      rw [hB] at hlt
      simp at hlt
    constructor
    · have htake : B.take A.length = A := (List.prefix_iff_eq_take.mp hpre).symm
      simp [is_descendant, hA, Nat.not_le.mpr hlt, htake]
    · simp [is_descendant, hBne, Nat.le_of_lt hlt, hne]
  · by_cases hA : A = []
    · subst hA; simp [is_descendant]
    · simp [is_descendant, hA]

/-- C4 witness: the amended theorem applied to the concrete proper prefix
`["1"]` of `["1", "2"]`. -/
theorem C4_witness :
    (["1"] ≠ ([] : List String) ∧ ["1"] <+: ["1", "2"] ∧ ["1"] ≠ ["1", "2"]) ∧
    is_descendant ["1", "2"] ["1"] = true ∧ is_descendant ["1"] ["1", "2"] = false :=
  ⟨⟨by decide, by decide, by decide⟩,
    (C4_amended ["1"] ["1", "2"]).1 (by decide) (by decide) (by decide)⟩

/-- C5: the claim fails for negative cosine distances: at distance −1 the
similarity used by retrieval is 2, outside [0,1] (the code clamps negative
similarities to 0 but never clamps above 1). -/
theorem C5_counterexample :
    similarity_used_by_search "cosine" (some (-1)) = 2 ∧
    ¬ similarity_used_by_search "cosine" (some (-1)) ≤ 1 := by
  have h : similarity_used_by_search "cosine" (some (-1)) = 2 := by
    simp +decide [similarity_used_by_search, convert_distance_to_similarity]
    norm_num
  exact ⟨h, by rw [h]; norm_num⟩

/-- C5 amended: the similarity consumed by retrieval is the raw conversion
clamped from below at 0 only.  For cosine/inner-product it equals
`max(1 − distance, 0)`, which lies in [0,1] exactly when `distance ≥ 0`
(there is no upper clamp); for L2 it equals `1/(1 + max(distance, 0))` and
always lies in (0,1]; every metric yields a non-negative value, and a
missing distance yields 0. -/
theorem C5_amended (d : ℚ) :
    similarity_used_by_search "cosine" (some d) = max (1 - d) 0 ∧
    similarity_used_by_search "ip" (some d) = max (1 - d) 0 ∧
    (0 ≤ d → similarity_used_by_search "cosine" (some d) ≤ 1 ∧
      similarity_used_by_search "ip" (some d) ≤ 1) ∧
    (∀ m : String, 0 ≤ similarity_used_by_search m (some d)) ∧
    (similarity_used_by_search "l2" (some d) = 1 / (1 + max d 0) ∧
      0 < similarity_used_by_search "l2" (some d) ∧
      similarity_used_by_search "l2" (some d) ≤ 1) ∧
    similarity_used_by_search "euclidean" (some d) = 1 / (1 + max d 0) ∧
    (∀ m : String, similarity_used_by_search m none = 0) := by
  have hclamp : ∀ x : ℚ, (if x < 0 then (0 : ℚ) else x) = max x 0 := by
    intro x
    rcases lt_or_le x 0 with h | h
    · rw [if_pos h, max_eq_right (le_of_lt h)]
    · rw [if_neg (not_lt.mpr h), max_eq_left h]
  have hcos : convert_distance_to_similarity "cosine" (some d) = 1 - d := by
    simp +decide [convert_distance_to_similarity]
  have hip : convert_distance_to_similarity "ip" (some d) = 1 - d := by
    simp +decide [convert_distance_to_similarity]
  have hl2conv : convert_distance_to_similarity "l2" (some d) = 1 / (1 + max d 0) := by
    simp +decide [convert_distance_to_similarity]
  have heuconv : convert_distance_to_similarity "euclidean" (some d) = 1 / (1 + max d 0) := by
    simp +decide [convert_distance_to_similarity]
  have hl2pos : (0 : ℚ) < 1 / (1 + max d 0) := by
    have h0 : (0 : ℚ) ≤ max d 0 := le_max_right d 0
    have : (0 : ℚ) < 1 + max d 0 := by linarith
    exact one_div_pos.mpr this
  have hcosval : similarity_used_by_search "cosine" (some d) = max (1 - d) 0 := by
    rw [similarity_used_by_search, hcos]; exact hclamp (1 - d)
  have hipval : similarity_used_by_search "ip" (some d) = max (1 - d) 0 := by
    rw [similarity_used_by_search, hip]; exact hclamp (1 - d)
  have hl2val : similarity_used_by_search "l2" (some d) = 1 / (1 + max d 0) := by
    rw [similarity_used_by_search, hl2conv, if_neg (not_lt.mpr (le_of_lt hl2pos))]
  refine ⟨hcosval, hipval, fun hd => ?_, fun m => ?_, ⟨hl2val, ?_, ?_⟩, ?_, fun m => ?_⟩
  · constructor
    · rw [hcosval]
      exact max_le (by linarith) (by norm_num)
    · rw [hipval]
      exact max_le (by linarith) (by norm_num)
  · rw [similarity_used_by_search]
    split
    · exact le_refl 0
    · next h => exact not_lt.mp h
  · rw [hl2val]; exact hl2pos
  · rw [hl2val]
    have h0 : (0 : ℚ) ≤ max d 0 := le_max_right d 0
    have hpos : (0 : ℚ) < 1 + max d 0 := by linarith
    rw [div_le_one hpos]
    linarith
  · rw [similarity_used_by_search, heuconv, if_neg (not_lt.mpr (le_of_lt hl2pos))]
  · simp [similarity_used_by_search, convert_distance_to_similarity]

/-- C5 witness: the amended theorem applied at distance 2 under the cosine
metric. -/
theorem C5_witness :
    ((0 : ℚ) ≤ 2) ∧
    (similarity_used_by_search "cosine" (some 2) ≤ 1 ∧
      similarity_used_by_search "ip" (some 2) ≤ 1) :=
  ⟨by decide, (C5_amended 2).2.2.1 (by decide)⟩

/-- C10: the claim fails on the empty-retrieval knowledge-fallback
envelope: its timings dict has no `retrieval_ms` key although the
retrieval stage ran (the code only records `total_ms` and `generation_ms`
there, run_rag_chat.py lines 214-217). -/
theorem C10_counterexample :
    "retrieval_ms" ∉ (kf_timings 0 0).map Prod.fst ∧
    (kf_timings 0 0).map Prod.fst = ["total_ms", "generation_ms"] := by decide

/-- C10 amended: the empty-retrieval knowledge-fallback envelope's timings
contain exactly `total_ms` and `generation_ms` (no `retrieval_ms`, although
retrieval ran); the filter-emptied fallback envelope and the full-pipeline
envelope always contain all four keys, and when the relevance filter was
skipped the full envelope still contains `filter_ms` — with a null value —
rather than omitting the key. -/
theorem C10_amended (total_ms retrieval_ms filter_ms generation_ms : ℚ)
    (q a m r : String) (hy : Bool) (cl : ℤ) :
    (kf_timings total_ms generation_ms).map Prod.fst =
      ["total_ms", "generation_ms"] ∧
    "retrieval_ms" ∉ (kf_timings total_ms generation_ms).map Prod.fst ∧
    (filter_fallback_timings total_ms retrieval_ms filter_ms generation_ms).map
      Prod.fst = ["total_ms", "retrieval_ms", "filter_ms", "generation_ms"] ∧
    (∀ fm : Option ℚ, (full_timings total_ms retrieval_ms fm generation_ms).map
      Prod.fst = ["total_ms", "retrieval_ms", "filter_ms", "generation_ms"]) ∧
    (full_timings total_ms retrieval_ms none generation_ms).lookup "filter_ms" =
      some none ∧
    (knowledge_fallback_envelope q a m r hy cl total_ms generation_ms).timings =
      kf_timings total_ms generation_ms := by
  refine ⟨rfl, ?_, rfl, fun fm => rfl, rfl, rfl⟩
  simp [kf_timings]

/-- C1: the claim's final clause fails: the empty-retrieval
knowledge-fallback path cannot return an envelope either — `generate_answer`
forwards the `procedural_mode` keyword to `ResponseGenerator.generate`,
which does not accept it, so the call raises a `TypeError`. -/
theorem C1_counterexample :
    generate_rag_response "q" [] "answer" "model" "req" true 0 0 0
        (.ok (knowledge_fallback_envelope "q" "answer" "model" "req" true 0 0 0)) =
      .error (.typeError "ResponseGenerator.generate" "procedural_mode") := rfl

/-- C1 amended: `generate_rag_response` never returns a Response Envelope.
With a non-empty candidate set it raises `AttributeError` at
`RetrievalEngine.detect_procedural_intent` (whatever the unreachable
remainder `rest` would do); with an empty one it raises `TypeError` for the
`procedural_mode` keyword; and `detect_procedural_intent`,
`expand_with_neighbors`, `neighbor_hops` and `procedural_mode` are indeed
all undefined on their respective targets. -/
theorem C1_amended (user_query : String) (search_results : List Passage)
    (generated_answer generation_model_used request_id : String)
    (hybrid_mode : Bool) (context_token_limit : ℤ) (total_ms generation_ms : ℚ)
    (rest : Except PyErr Envelope) :
    (search_results ≠ [] →
      generate_rag_response user_query search_results generated_answer
          generation_model_used request_id hybrid_mode context_token_limit
          total_ms generation_ms rest =
        .error (.attributeError "RetrievalEngine" "detect_procedural_intent")) ∧
    (search_results = [] →
      generate_rag_response user_query search_results generated_answer
          generation_model_used request_id hybrid_mode context_token_limit
          total_ms generation_ms rest =
        .error (.typeError "ResponseGenerator.generate" "procedural_mode")) ∧
    (∀ env : Envelope,
      generate_rag_response user_query search_results generated_answer
          generation_model_used request_id hybrid_mode context_token_limit
          total_ms generation_ms rest ≠ .ok env) ∧
    "detect_procedural_intent" ∉ retrieval_engine_attrs ∧
    "expand_with_neighbors" ∉ retrieval_engine_attrs ∧
    "neighbor_hops" ∉ rag_config_slots ∧
    "procedural_mode" ∉ response_generator_generate_params := by
  have hga : generate_answer_call =
      .error (.typeError "ResponseGenerator.generate" "procedural_mode") := rfl
  have hattr : getattr_check retrieval_engine_attrs "RetrievalEngine"
      "detect_procedural_intent" =
      .error (.attributeError "RetrievalEngine" "detect_procedural_intent") := rfl
  have h1 : ∀ h : search_results ≠ [],
      generate_rag_response user_query search_results generated_answer
          generation_model_used request_id hybrid_mode context_token_limit
          total_ms generation_ms rest =
        .error (.attributeError "RetrievalEngine" "detect_procedural_intent") := by
    intro h
    simp [generate_rag_response, h, hattr]
  have h2 : ∀ h : search_results = [],
      generate_rag_response user_query search_results generated_answer
          generation_model_used request_id hybrid_mode context_token_limit
          total_ms generation_ms rest =
        .error (.typeError "ResponseGenerator.generate" "procedural_mode") := by
    intro h
    simp [generate_rag_response, h, hga]
  refine ⟨h1, h2, fun env => ?_, by decide, by decide, by decide, by decide⟩
  by_cases h : search_results = []
  · rw [h2 h]; intro hcontra; exact Except.noConfusion hcontra
  · rw [h1 h]; intro hcontra; exact Except.noConfusion hcontra

/-- C1 witness: the amended theorem applied to a concrete non-empty
candidate set. -/
theorem C1_witness :
    ([pA] ≠ ([] : List Passage)) ∧
    generate_rag_response "q" [pA] "a" "m" "r" true 0 0 0
        (.ok (knowledge_fallback_envelope "q" "a" "m" "r" true 0 0 0)) =
      .error (.attributeError "RetrievalEngine" "detect_procedural_intent") :=
  ⟨by decide,
    (C1_amended "q" [pA] "a" "m" "r" true 0 0 0
      (.ok (knowledge_fallback_envelope "q" "a" "m" "r" true 0 0 0))).1 (by decide)⟩

/-- C2: the claim fails at budget 0 (which it includes via "budget >= 0"):
the code treats `token_limit <= 0` as "truncation disabled" and returns a
one-token context unchanged, so the output token count exceeds the
budget. -/
theorem C2_counterexample :
    truncate_context_if_needed [9] [1] 0 = ⟨[1], false, 1⟩ ∧
    ¬ ((1 : ℤ) ≤ 0) := by decide

/-- C2 amended: for budgets ≥ 1 the Context Assembler behaves as claimed —
output token count ≤ budget (and equal to the reported count), input
within budget returned identically with `truncated = false`, a marker at
or above the budget forces a markerless hard truncation to the budget, and
otherwise content is cut to `budget − marker length` with the marker
appended.  A budget ≤ 0, however, disables truncation entirely and returns
the input unchanged even when it exceeds the budget. -/
theorem C2_amended (notice_tokens tokens : List ℕ) (token_limit : ℤ) :
    (token_limit ≤ 0 →
      truncate_context_if_needed notice_tokens tokens token_limit =
        ⟨tokens, false, tokens.length⟩) ∧
    (1 ≤ token_limit →
      ((truncate_context_if_needed notice_tokens tokens token_limit).text.length :
        ℤ) ≤ token_limit ∧
      (truncate_context_if_needed notice_tokens tokens token_limit).token_count =
        (truncate_context_if_needed notice_tokens tokens token_limit).text.length ∧
      ((tokens.length : ℤ) ≤ token_limit →
        truncate_context_if_needed notice_tokens tokens token_limit =
          ⟨tokens, false, tokens.length⟩) ∧
      (token_limit < (tokens.length : ℤ) →
        (notice_tokens.length : ℤ) ≥ token_limit →
        truncate_context_if_needed notice_tokens tokens token_limit =
          ⟨tokens.take token_limit.toNat, true,
            (tokens.take token_limit.toNat).length⟩) ∧
      (token_limit < (tokens.length : ℤ) →
        (notice_tokens.length : ℤ) < token_limit →
        (truncate_context_if_needed notice_tokens tokens token_limit).text =
          tokens.take (token_limit - (notice_tokens.length : ℤ)).toNat ++
            notice_tokens ∧
        notice_tokens <:+
          (truncate_context_if_needed notice_tokens tokens token_limit).text ∧
        (truncate_context_if_needed notice_tokens tokens token_limit).truncated =
          true)) := by
  constructor
  · intro h
    simp [truncate_context_if_needed, if_pos h]
  · intro h1
    have hno : ¬ token_limit ≤ 0 := by omega
    by_cases h2 : (tokens.length : ℤ) ≤ token_limit
    · have hres : truncate_context_if_needed notice_tokens tokens token_limit =
          ⟨tokens, false, tokens.length⟩ := by
        simp [truncate_context_if_needed, hno, h2]
      refine ⟨by rw [hres]; exact h2, by rw [hres], fun _ => hres,
        fun h3 _ => by omega, fun h3 _ => by omega⟩
    · have h2' : token_limit < (tokens.length : ℤ) := by omega
      by_cases h3 : (notice_tokens.length : ℤ) ≥ token_limit
      · have hres : truncate_context_if_needed notice_tokens tokens token_limit =
            ⟨tokens.take token_limit.toNat, true,
              (tokens.take token_limit.toNat).length⟩ := by
          simp [truncate_context_if_needed, hno, h2, h3]
        refine ⟨?_, by rw [hres], fun h4 => by omega, fun _ _ => hres,
          fun _ h4 => by omega⟩
        rw [hres]
        simp only [List.length_take]
        omega
      · have hmax : max 0 (token_limit - (notice_tokens.length : ℤ)) =
            token_limit - (notice_tokens.length : ℤ) := by omega
        have hres : truncate_context_if_needed notice_tokens tokens token_limit =
            ⟨tokens.take (token_limit - (notice_tokens.length : ℤ)).toNat ++
                notice_tokens, true,
              (tokens.take (token_limit - (notice_tokens.length : ℤ)).toNat).length
                + notice_tokens.length⟩ := by
          simp [truncate_context_if_needed, hno, h2, h3, hmax]
        refine ⟨?_, by rw [hres]; simp, fun h4 => by omega, fun _ h4 => by omega,
          fun _ _ => ⟨by rw [hres], by rw [hres]; exact List.suffix_append _ _,
            by rw [hres]⟩⟩
        rw [hres]
        simp only [List.length_append, List.length_take]
        omega

/-- C2 witness: the amended theorem applied to a 3-token context, a 1-token
marker and budget 2 (over budget, marker below budget: content cut to one
token and the marker appended). -/
theorem C2_witness :
    ((1 : ℤ) ≤ 2) ∧
    (((truncate_context_if_needed [9] [1, 2, 3] 2).text.length : ℤ) ≤ 2) ∧
    ((truncate_context_if_needed [9] [1, 2, 3] 2).text =
        [1, 2, 3].take ((2 : ℤ) - (([9] : List ℕ).length : ℤ)).toNat ++ [9] ∧
      [9] <:+ (truncate_context_if_needed [9] [1, 2, 3] 2).text ∧
      (truncate_context_if_needed [9] [1, 2, 3] 2).truncated = true) :=
  ⟨by decide, ((C2_amended [9] [1, 2, 3] 2).2 (by decide)).1,
    ((C2_amended [9] [1, 2, 3] 2).2 (by decide)).2.2.2.2 (by decide) (by decide)⟩

/-- C8: the claim fails: a passage whose lowered, stripped text matches the
configured TOC pattern `^chapter \d+` is rejected by `_is_content_useful`
even though it contains the configured important keyword "safety" — the
pattern loop returns `False` before the keyword check runs (retrieval.py
lines 96-102). -/
theorem C8_counterexample :
    chapter_pattern (pyStripS (pyLower chapter_header_text)) = true ∧
    containsSub (pyStripS (pyLower chapter_header_text)).toList
      "safety".toList = true ∧
    is_content_useful [chapter_pattern] ["safety"] chapter_header_text = false := by
  decide

/-- C8 amended: during content-usefulness filtering, a passage (of stripped
length ≥ 10) whose lowered, stripped text matches a configured
TOC/header pattern is rejected unconditionally — the important-keyword
override does NOT apply to pattern rejection; the keyword override applies
only afterwards, where it keeps a pattern-free passage regardless of the
short-content and low-alphabetic-count checks. -/
theorem C8_amended (toc_patterns : List (String → Bool))
    (important_keywords : List String) (text : String) :
    (¬ (text = "" ∨ (pyStrip text.toList).length < 10) →
      toc_patterns.any (fun pat => pat (pyStripS (pyLower text))) = true →
      is_content_useful toc_patterns important_keywords text = false) ∧
    (¬ (text = "" ∨ (pyStrip text.toList).length < 10) →
      toc_patterns.any (fun pat => pat (pyStripS (pyLower text))) = false →
      important_keywords.any
        (fun kw => containsSub (pyStripS (pyLower text)).toList kw.toList) = true →
      is_content_useful toc_patterns important_keywords text = true) := by
  constructor
  · intro h1 h2
    simp only [is_content_useful, if_neg h1, h2, if_true]
  · intro h1 h2 h3
    simp only [is_content_useful, if_neg h1, h2, h3]
    simp

/-- C8 witness: the amended theorem applied to the concrete chapter-header
passage and pattern. -/
theorem C8_witness :
    (¬ (chapter_header_text = "" ∨
        (pyStrip chapter_header_text.toList).length < 10)) ∧
    is_content_useful [chapter_pattern] ["safety"] chapter_header_text = false :=
  ⟨by decide,
    (C8_amended [chapter_pattern] ["safety"] chapter_header_text).1
      (by decide) (by decide)⟩

/-- A take of at least one element of a non-empty list is non-empty. -/
theorem take_ne_nil_of_pos {α : Type} (l : List α) (n : ℕ) (hl : l ≠ []) (hn : 1 ≤ n) :
    l.take n ≠ [] := by
  cases l with
  | nil => exact absurd rfl hl
  | cons a t =>
    cases n with
    | zero => omega
    | succ m => simp

/-- The similarity fallback never returns empty on non-empty input. -/
theorem similarity_fallback_ne_nil (floor : ℚ) (results : List Passage)
    (h : results ≠ []) :
    RelevanceFilter.similarity_fallback floor results ≠ [] := by
  have hlen : (List.insertionSort seedGE results).length = results.length :=
    (List.perm_insertionSort seedGE results).length_eq
  have hpos : 0 < results.length := List.length_pos.mpr h
  have hsfne : List.insertionSort seedGE results ≠ [] := by
    intro hnil
    rw [hnil] at hlen
    simp at hlen
    omega
  simp only [RelevanceFilter.similarity_fallback, if_neg h]
  by_cases hc : (List.insertionSort seedGE results).filter
      (fun r => decide (max 0 floor ≤ simOf r)) = []
  · rw [if_pos hc]
    exact take_ne_nil_of_pos _ _ hsfne (by omega)
  · rw [if_neg hc]
    have hcl : 0 < ((List.insertionSort seedGE results).filter
        (fun r => decide (max 0 floor ≤ simOf r))).length := List.length_pos.mpr hc
    have hlim : min 3 ((List.insertionSort seedGE results).filter
        (fun r => decide (max 0 floor ≤ simOf r))).length ≠ 0 := by
      have := lt_min (by norm_num : (0:ℕ) < 3) hcl
      omega
    rw [if_neg hlim]
    exact take_ne_nil_of_pos _ _ hc (by omega)

/-- C3: for every non-empty candidate list, `RelevanceFilter.filter`
returns a non-empty list for every possible filter-response outcome; each
anomalous outcome (call failure, empty answer, malformed JSON, non-list
shape — and, inside the parser, non-integer items and out-of-range
indices) routes to the similarity fallback, which itself is non-empty and
returns at most the top 3 when nothing meets the floor.  In the embedding,
`RelevanceFilter.filter` is total, so no exception reaches the caller. -/
theorem C3_filter_never_empty (floor : ℚ) (results : List Passage)
    (h : results ≠ []) :
    (∀ resp : FilterResp, RelevanceFilter.filter floor results resp ≠ []) ∧
    RelevanceFilter.filter floor results .callFailed =
      RelevanceFilter.similarity_fallback floor results ∧
    RelevanceFilter.filter floor results .emptyContent =
      RelevanceFilter.similarity_fallback floor results ∧
    RelevanceFilter.filter floor results .invalidJson =
      RelevanceFilter.similarity_fallback floor results ∧
    RelevanceFilter.filter floor results (.jsonValue .nonList) =
      RelevanceFilter.similarity_fallback floor results ∧
    RelevanceFilter.similarity_fallback floor results ≠ [] ∧
    ((∀ r ∈ results, simOf r < max 0 floor) →
      (RelevanceFilter.similarity_fallback floor results).length ≤ 3) := by
  have hfb := similarity_fallback_ne_nil floor results h
  refine ⟨fun resp => ?_, by simp [RelevanceFilter.filter, if_neg h],
    by simp [RelevanceFilter.filter, if_neg h],
    by simp [RelevanceFilter.filter, if_neg h],
    by simp [RelevanceFilter.filter, if_neg h], hfb, fun hall => ?_⟩
  · cases resp with
    | callFailed => simpa [RelevanceFilter.filter, if_neg h] using hfb
    | emptyContent => simpa [RelevanceFilter.filter, if_neg h] using hfb
    | invalidJson => simpa [RelevanceFilter.filter, if_neg h] using hfb
    | jsonValue v =>
      cases v with
      | nonList => simpa [RelevanceFilter.filter, if_neg h] using hfb
      | arr items =>
        simp only [RelevanceFilter.filter, if_neg h]
        cases parse_indices_go (results.length : ℤ) items [] with
        | none => exact hfb
        | some keep =>
          simp only []
          split
          · exact hfb
          · split
            · exact hfb
            · next hne2 => exact hne2
  · have hcand : (List.insertionSort seedGE results).filter
        (fun r => decide (max 0 floor ≤ simOf r)) = [] := by
      rw [List.filter_eq_nil_iff]
      intro r hr
      have hrmem : r ∈ results := (List.perm_insertionSort seedGE results).subset hr
      simp only [decide_eq_true_eq]
      exact not_le.mpr (hall r hrmem)
    have heq : RelevanceFilter.similarity_fallback floor results =
        (List.insertionSort seedGE results).take
          (min 3 (List.insertionSort seedGE results).length) := by
      simp only [RelevanceFilter.similarity_fallback, if_neg h]
      rw [hcand, if_pos rfl]
    rw [heq, List.length_take]
    omega

/-- C6 amended: the similarity fallback sorts candidates by similarity
descending and keeps AT MOST THE FIRST 3 of those at or above the
configured floor (`min(3, count)` of them — not every qualifying
candidate); only when no candidate meets the floor does it keep the top 3
(or fewer if the candidate set is smaller) regardless of floor. -/
theorem C6_amended (floor : ℚ) (results : List Passage) (h : results ≠ []) :
    RelevanceFilter.similarity_fallback floor results ≠ [] ∧
    (RelevanceFilter.similarity_fallback floor results).length ≤ 3 ∧
    (∀ r ∈ RelevanceFilter.similarity_fallback floor results, r ∈ results) ∧
    List.Sorted seedGE (RelevanceFilter.similarity_fallback floor results) ∧
    ((∃ r ∈ results, max 0 floor ≤ simOf r) →
      (∀ r ∈ RelevanceFilter.similarity_fallback floor results,
        max 0 floor ≤ simOf r) ∧
      (RelevanceFilter.similarity_fallback floor results).length =
        min 3 (results.countP (fun r => decide (max 0 floor ≤ simOf r)))) ∧
    ((∀ r ∈ results, simOf r < max 0 floor) →
      (RelevanceFilter.similarity_fallback floor results).length =
        min 3 results.length) := by
  have hperm := List.perm_insertionSort seedGE results
  have hlen : (List.insertionSort seedGE results).length = results.length :=
    hperm.length_eq
  have hpos : 0 < results.length := List.length_pos.mpr h
  have hsorted : List.Sorted seedGE (List.insertionSort seedGE results) :=
    List.sorted_insertionSort seedGE results
  have hsfne : List.insertionSort seedGE results ≠ [] := by
    intro hnil; rw [hnil] at hlen; simp at hlen; omega
  have hcount : ((List.insertionSort seedGE results).filter
      (fun r => decide (max 0 floor ≤ simOf r))).length =
      results.countP (fun r => decide (max 0 floor ≤ simOf r)) := by
    rw [← List.countP_eq_length_filter]
    exact hperm.countP_eq _
  by_cases hc : (List.insertionSort seedGE results).filter
      (fun r => decide (max 0 floor ≤ simOf r)) = []
  · have heq : RelevanceFilter.similarity_fallback floor results =
        (List.insertionSort seedGE results).take
          (min 3 (List.insertionSort seedGE results).length) := by
      simp only [RelevanceFilter.similarity_fallback, if_neg h]
      rw [hc, if_pos rfl]
    have hnomeet : ∀ r ∈ results, ¬ (max 0 floor ≤ simOf r) := by
      intro r hr hle
      have hr2 : r ∈ List.insertionSort seedGE results := hperm.symm.subset hr
      have : r ∈ (List.insertionSort seedGE results).filter
          (fun r => decide (max 0 floor ≤ simOf r)) :=
        List.mem_filter.mpr ⟨hr2, decide_eq_true hle⟩
      rw [hc] at this
      exact absurd this (List.not_mem_nil r)
    refine ⟨?_, ?_, ?_, ?_, ?_, ?_⟩
    · rw [heq]; exact take_ne_nil_of_pos _ _ hsfne (by omega)
    · rw [heq, List.length_take]; omega
    · intro r hr
      rw [heq] at hr
      exact hperm.subset (List.take_subset _ _ hr)
    · rw [heq]
      exact hsorted.sublist (List.take_sublist _ _)
    · rintro ⟨r, hr, hle⟩
      exact absurd hle (hnomeet r hr)
    · intro _
      rw [heq, List.length_take, hlen]
      omega
  · have hcl : 0 < ((List.insertionSort seedGE results).filter
        (fun r => decide (max 0 floor ≤ simOf r))).length := List.length_pos.mpr hc
    have hlim : min 3 ((List.insertionSort seedGE results).filter
        (fun r => decide (max 0 floor ≤ simOf r))).length ≠ 0 := by
      have := lt_min (by norm_num : (0:ℕ) < 3) hcl
      omega
    have heq : RelevanceFilter.similarity_fallback floor results =
        ((List.insertionSort seedGE results).filter
          (fun r => decide (max 0 floor ≤ simOf r))).take
          (min 3 ((List.insertionSort seedGE results).filter
            (fun r => decide (max 0 floor ≤ simOf r))).length) := by
      simp only [RelevanceFilter.similarity_fallback, if_neg h]
      rw [if_neg hc, if_neg hlim]
    refine ⟨?_, ?_, ?_, ?_, ?_, ?_⟩
    · rw [heq]; exact take_ne_nil_of_pos _ _ hc (by omega)
    · rw [heq, List.length_take]; omega
    · intro r hr
      rw [heq] at hr
      exact hperm.subset (List.mem_filter.mp (List.take_subset _ _ hr)).1
    · rw [heq]
      exact (hsorted.filter _).sublist (List.take_sublist _ _)
    · intro _
      refine ⟨?_, ?_⟩
      · intro r hr
        rw [heq] at hr
        have := (List.mem_filter.mp (List.take_subset _ _ hr)).2
        exact of_decide_eq_true this
      · rw [heq, List.length_take, hcount]
        omega
    · intro hall
      exfalso
      rcases List.exists_mem_of_ne_nil _ hc with ⟨r, hr⟩
      have h1 := List.mem_filter.mp hr
      have h2 : r ∈ results := hperm.subset h1.1
      exact absurd (of_decide_eq_true h1.2) (not_le.mpr (hall r h2))

/-- Index validation on an all-integer, all-in-range response reduces to
first-occurrence deduplication. -/
theorem parse_go_map_int (n : ℤ) (idxs : List ℤ) :
    ∀ acc, (∀ i ∈ idxs, 1 ≤ i ∧ i ≤ n) →
    parse_indices_go n (idxs.map PyItem.int) acc =
      some (idxs.foldl (fun acc i => if i ∈ acc then acc else acc ++ [i]) acc) := by
  induction idxs with
  | nil => intro acc _; rfl
  | cons i rest ih =>
    intro acc hr
    have hi := hr i (List.mem_cons_self i rest)
    have hrest : ∀ j ∈ rest, 1 ≤ j ∧ j ≤ n := fun j hj =>
      hr j (List.mem_cons_of_mem i hj)
    simp only [List.map_cons, parse_indices_go, if_neg (not_not_intro hi),
      List.foldl_cons]
    by_cases hmem : i ∈ acc
    · rw [if_pos hmem, if_pos hmem, ih acc hrest]
    · rw [if_neg hmem, if_neg hmem, ih (acc ++ [i]) hrest]

/-- Members produced by the dedup fold come from the accumulator or the
list. -/
theorem mem_dedup_fold (l : List ℤ) :
    ∀ acc x, x ∈ l.foldl (fun acc i => if i ∈ acc then acc else acc ++ [i]) acc →
      x ∈ acc ∨ x ∈ l := by
  induction l with
  | nil => intro acc x hx; exact Or.inl hx
  | cons i rest ih =>
    intro acc x hx
    rw [List.foldl_cons] at hx
    rcases ih _ x hx with hacc | hrest
    · by_cases hmem : i ∈ acc
      · rw [if_pos hmem] at hacc
        exact Or.inl hacc
      · rw [if_neg hmem] at hacc
        rcases List.mem_append.mp hacc with h1 | h1
        · exact Or.inl h1
        · exact Or.inr (List.mem_singleton.mp h1 ▸ List.mem_cons_self i rest)
    · exact Or.inr (List.mem_cons_of_mem i hrest)

/-- The dedup fold never shrinks the accumulator. -/
theorem dedup_fold_length_mono (l : List ℤ) :
    ∀ acc : List ℤ,
      acc.length ≤ (l.foldl (fun acc i => if i ∈ acc then acc else acc ++ [i]) acc).length := by
  induction l with
  | nil => intro acc; exact le_refl _
  | cons i rest ih =>
    intro acc
    rw [List.foldl_cons]
    refine le_trans ?_ (ih _)
    by_cases hmem : i ∈ acc
    · rw [if_pos hmem]
    · rw [if_neg hmem]
      simp

theorem py_dedup_ne_nil (l : List ℤ) (h : l ≠ []) : py_dedup l ≠ [] := by
  cases l with
  | nil => exact absurd rfl h
  | cons i rest =>
    have : (1 : ℕ) ≤ (py_dedup (i :: rest)).length := by
      have h2 := dedup_fold_length_mono rest [i]
      simp only [py_dedup, List.foldl_cons] at *
      simpa using h2
    intro hnil
    rw [hnil] at this
    simp at this

/-- The mapping fold of `RelevanceFilter.filter` equals a `filterMap` when
every index is in range. -/
theorem map_fold_filterMap (results : List Passage) (keep : List ℤ) :
    ∀ acc, (∀ i ∈ keep, 1 ≤ i ∧ i ≤ (results.length : ℤ)) →
    keep.foldl (fun acc index =>
      if 1 ≤ index ∧ index ≤ (results.length : ℤ) then
        match results.get? (index - 1).toNat with
        | some r => acc ++ [r]
        | none => acc
      else acc) acc =
    acc ++ keep.filterMap (fun i => results.get? (i - 1).toNat) := by
  induction keep with
  | nil => intro acc _; simp
  | cons i rest ih =>
    intro acc hr
    have hi := hr i (List.mem_cons_self i rest)
    have hrest : ∀ j ∈ rest, 1 ≤ j ∧ j ≤ (results.length : ℤ) := fun j hj =>
      hr j (List.mem_cons_of_mem i hj)
    have hget : ∃ r, results.get? (i - 1).toNat = some r := by
      cases hq : results.get? (i - 1).toNat with
      | none =>
        have := List.get?_eq_none.mp hq
        omega
      | some r => exact ⟨r, rfl⟩
    rcases hget with ⟨r, hr2⟩
    rw [List.foldl_cons]
    simp only [if_pos hi, hr2]
    rw [ih (acc ++ [r]) hrest, List.filterMap_cons, hr2]
    simp

/-- C7 amended: when the relevance-filter model returns a valid JSON array
of in-range integer indices, `RelevanceFilter.filter` deduplicates the
indices keeping the first occurrence and maps them to passages IN THE
ORDER THE INDICES APPEARED IN THE MODEL'S RESPONSE — not in the original
candidate order (stated here with every candidate meeting the similarity
floor, so the floor pass keeps everything). -/
theorem C7_amended (floor : ℚ) (results : List Passage) (idxs : List ℤ)
    (hne : idxs ≠ [])
    (hrange : ∀ i ∈ idxs, 1 ≤ i ∧ i ≤ (results.length : ℤ))
    (hfloor : ∀ r ∈ results, max 0 floor ≤ simOf r) :
    RelevanceFilter.filter floor results (.jsonValue (.arr (idxs.map PyItem.int)))
      = (py_dedup idxs).filterMap (fun i => results.get? (i - 1).toNat) := by
  have hrne : results ≠ [] := by
    cases idxs with
    | nil => exact absurd rfl hne
    | cons i rest =>
      have hi := hrange i (List.mem_cons_self i rest)
      intro hempty
      rw [hempty] at hi
      simp at hi
      omega
  have hkeeprange : ∀ i ∈ py_dedup idxs, 1 ≤ i ∧ i ≤ (results.length : ℤ) := by
    intro i hi
    rcases mem_dedup_fold idxs [] i hi with h1 | h1
    · exact absurd h1 (List.not_mem_nil i)
    · exact hrange i h1
  have hkne : py_dedup idxs ≠ [] := py_dedup_ne_nil idxs hne
  have hmapped : (py_dedup idxs).filterMap (fun i => results.get? (i - 1).toNat) ≠ [] := by
    cases hk : py_dedup idxs with
    | nil => exact absurd hk hkne
    | cons k krest =>
      have hkr : 1 ≤ k ∧ k ≤ (results.length : ℤ) := by
        apply hkeeprange
        rw [hk]
        exact List.mem_cons_self k krest
      have hget : ∃ r, results.get? (k - 1).toNat = some r := by
        cases hq : results.get? (k - 1).toNat with
        | none =>
          have := List.get?_eq_none.mp hq
          omega
        | some r => exact ⟨r, rfl⟩
      rcases hget with ⟨r, hr2⟩
      rw [List.filterMap_cons, hr2]
      simp
  have hmem : ∀ r ∈ (py_dedup idxs).filterMap (fun i => results.get? (i - 1).toNat),
      r ∈ results := by
    intro r hr
    rcases List.mem_filterMap.mp hr with ⟨i, _, hget⟩
    exact List.get?_mem hget
  simp only [RelevanceFilter.filter, if_neg hrne]
  rw [parse_go_map_int (results.length : ℤ) idxs [] hrange]
  simp only []
  rw [show (idxs.foldl (fun acc i => if i ∈ acc then acc else acc ++ [i]) []) =
    py_dedup idxs from rfl]
  rw [map_fold_filterMap results (py_dedup idxs) [] hkeeprange]
  rw [List.nil_append]
  rw [if_neg hmapped]
  have hfiltered : ((py_dedup idxs).filterMap
      (fun i => results.get? (i - 1).toNat)).filter
        (fun r => decide (max 0 floor ≤ simOf r)) =
      (py_dedup idxs).filterMap (fun i => results.get? (i - 1).toNat) := by
    rw [List.filter_eq_self]
    intro r hr
    exact decide_eq_true (hfloor r (hmem r hr))
  rw [hfiltered, if_neg hmapped]

/-- C3 witness: the theorem applied to a concrete one-element candidate
list and the call-failure outcome. -/
theorem C3_witness :
    ([pA] ≠ ([] : List Passage)) ∧
    RelevanceFilter.filter 0 [pA] FilterResp.callFailed ≠ [] :=
  ⟨by decide, (C3_filter_never_empty 0 [pA] (by decide)).1 FilterResp.callFailed⟩

/-- C6: the claim fails when more than 3 candidates meet the floor: with
four candidates all at or above the floor the fallback keeps only the top
3 and drops the fourth, although the claim says every candidate at or
above the floor is kept. -/
theorem C6_counterexample :
    (∀ r ∈ [pD, pA, pB, pC], max 0 (0 : ℚ) ≤ simOf r) ∧
    RelevanceFilter.similarity_fallback 0 [pD, pA, pB, pC] = [pA, pB, pC] ∧
    pD ∈ [pD, pA, pB, pC] ∧
    pD ∉ RelevanceFilter.similarity_fallback 0 [pD, pA, pB, pC] := by decide

/-- C6 witness: the amended theorem applied to the same four-candidate
list. -/
theorem C6_witness :
    ([pD, pA, pB, pC] ≠ ([] : List Passage)) ∧
    RelevanceFilter.similarity_fallback 0 [pD, pA, pB, pC] ≠ [] ∧
    (RelevanceFilter.similarity_fallback 0 [pD, pA, pB, pC]).length ≤ 3 :=
  ⟨by decide, (C6_amended 0 [pD, pA, pB, pC] (by decide)).1,
    (C6_amended 0 [pD, pA, pB, pC] (by decide)).2.1⟩

/-- C7: the claim fails: for candidates `[pA, pB]` and model response
`[2, 1]` the filtered list is `[pB, pA]` — the response order — not the
original candidate order `[pA, pB]`. -/
theorem C7_counterexample :
    RelevanceFilter.filter 0 [pA, pB]
        (.jsonValue (.arr [PyItem.int 2, PyItem.int 1])) = [pB, pA] ∧
    [pB, pA] ≠ [pA, pB] := by decide

/-- C7 witness: the amended theorem applied to a concrete in-range
response (with a duplicate index, exercising first-occurrence
deduplication). -/
theorem C7_witness :
    ([(1 : ℤ), 1] ≠ ([] : List ℤ)) ∧
    (∀ i ∈ [(1 : ℤ), 1], 1 ≤ i ∧ i ≤ (([pA] : List Passage).length : ℤ)) ∧
    (∀ r ∈ [pA], max 0 (0 : ℚ) ≤ simOf r) ∧
    RelevanceFilter.filter 0 [pA]
        (.jsonValue (.arr ([(1 : ℤ), 1].map PyItem.int)))
      = (py_dedup [(1 : ℤ), 1]).filterMap (fun i => [pA].get? (i - 1).toNat) :=
  ⟨by decide, by decide, by decide,
    C7_amended 0 [pA] [1, 1] (by decide) (by decide) (by decide)⟩

/-- Candidate tokens at or below the ancestor's length that satisfy
`is_descendant` are the ancestor's tokens. -/
theorem descendant_parts_eq (c a : List String)
    (hd : is_descendant c a = true) (hle : c.length ≤ a.length) : c = a := by
  unfold is_descendant at hd
  by_cases ha : a = []
  · rw [if_pos ha] at hd
    exact absurd hd (by simp)
  · rw [if_neg ha, if_pos hle] at hd
    exact beq_iff_eq.mp hd

theorem processEntry_inv (collGet : String → List ParagraphEntry)
    (seeds : List Passage) (max_depth : ℤ) (s : Passage) (hs : s ∈ seeds)
    (para afi : String) (hpara : s.metadata.paragraph = some para)
    (hafi : s.metadata.afi_number = some afi)
    (st : ExpState) (e : ParagraphEntry) (he : e ∈ load_afi_entries (collGet afi))
    (hst : ∀ q ∈ st.expanded, q ∈ seeds ∨ ExpandedWithin collGet seeds max_depth q) :
    ∀ q ∈ (processEntry max_depth (normalize_paragraph_parts para) (simOf s)
        st e).expanded,
      q ∈ seeds ∨ ExpandedWithin collGet seeds max_depth q := by
  intro q hq
  unfold processEntry at hq
  cases hpe : paragraph_id e with
  | none => rw [hpe] at hq; exact hst q hq
  | some cp =>
    simp only [hpe] at hq
    by_cases h1 : cp = ""
    · rw [if_pos h1] at hq; exact hst q hq
    rw [if_neg h1] at hq
    by_cases h2 : normalize_paragraph_parts cp = []
    · rw [if_pos h2] at hq; exact hst q hq
    rw [if_neg h2] at hq
    by_cases h3 : is_descendant (normalize_paragraph_parts cp)
        (normalize_paragraph_parts para) = true
    swap
    · rw [if_pos h3] at hq; exact hst q hq
    rw [if_neg (not_not_intro h3)] at hq
    by_cases h4 : e.id ∈ st.seen
    · rw [if_pos h4] at hq; exact hst q hq
    rw [if_neg h4] at hq
    by_cases h5 : depthOf (normalize_paragraph_parts cp)
        (normalize_paragraph_parts para) > max_depth
    · rw [if_pos h5] at hq; exact hst q hq
    rw [if_neg h5] at hq
    rcases List.mem_append.mp hq with hold | hnew
    · exact hst q hold
    · right
      have hqe := List.mem_singleton.mp hnew
      refine ⟨s, hs, para, afi, hpara, hafi, e, he, cp, hpe, h3,
        not_lt.mp h5, fun h0 => ?_, hqe⟩
      apply descendant_parts_eq _ _ h3
      have hd : depthOf (normalize_paragraph_parts cp)
          (normalize_paragraph_parts para) ≤ 0 := by
        rw [h0] at h5
        exact not_lt.mp h5
      unfold depthOf at hd
      omega

theorem processSeed_inv (collGet : String → List ParagraphEntry)
    (seeds : List Passage) (max_depth : ℤ) (seed : Passage) (hseed : seed ∈ seeds)
    (st : ExpState)
    (hst : ∀ q ∈ st.expanded, q ∈ seeds ∨ ExpandedWithin collGet seeds max_depth q) :
    ∀ q ∈ (processSeed collGet max_depth st seed).expanded,
      q ∈ seeds ∨ ExpandedWithin collGet seeds max_depth q := by
  have hst1 : ∀ q ∈ (match seed.id with
      | some sid =>
        if sid ∈ st.seen then st else ⟨st.seen ++ [sid], st.expanded ++ [seed]⟩
      | none => st : ExpState).expanded,
      q ∈ seeds ∨ ExpandedWithin collGet seeds max_depth q := by
    cases hid : seed.id with
    | none => exact hst
    | some sid =>
      simp only []
      by_cases hmem : sid ∈ st.seen
      · rw [if_pos hmem]; exact hst
      · rw [if_neg hmem]
        intro q hq
        rcases List.mem_append.mp hq with hold | hnew
        · exact hst q hold
        · exact Or.inl (List.mem_singleton.mp hnew ▸ hseed)
  intro q hq
  unfold processSeed at hq
  cases hpara : seed.metadata.paragraph with
  | none =>
    cases hafi : seed.metadata.afi_number with
    | none => simp only [hpara, hafi] at hq; exact hst1 q hq
    | some afi => simp only [hpara, hafi] at hq; exact hst1 q hq
  | some para =>
    cases hafi : seed.metadata.afi_number with
    | none => simp only [hpara, hafi] at hq; exact hst1 q hq
    | some afi =>
      simp only [hpara, hafi] at hq
      by_cases hemp : para = "" ∨ afi = ""
      · rw [if_pos hemp] at hq; exact hst1 q hq
      rw [if_neg hemp] at hq
      by_cases hnp : normalize_paragraph_parts para = []
      · rw [if_pos hnp] at hq; exact hst1 q hq
      rw [if_neg hnp] at hq
      exact foldl_inv (load_afi_entries (collGet afi)) (fun e he => he)
        (fun st' e he hP =>
          processEntry_inv collGet seeds max_depth seed hseed para afi hpara hafi
            st' e he hP) _ hst1 q hq

/-- C9 amended: every passage hierarchy expansion emits is either one of
the seeds or a depth-bounded expansion (`ExpandedWithin`): built from a
seed and a same-document entry whose tokens extend the seed's with depth at
most `max_depth`; in particular at `max_depth = 0` every emitted non-seed
passage has exactly the seed's token sequence (a depth-0 duplicate under a
different id), so the result need not be only the deduplicated seeds. -/
theorem C9_amended (collGet : String → List ParagraphEntry)
    (seeds : List Passage) (max_depth : ℤ) (p : Passage)
    (hp : p ∈ expand_with_descendants collGet seeds max_depth) :
    p ∈ seeds ∨ ExpandedWithin collGet seeds max_depth p := by
  unfold expand_with_descendants at hp
  exact foldl_inv (List.insertionSort seedGE seeds)
    (fun s hs => (List.perm_insertionSort seedGE seeds).subset hs)
    (fun st s hs hP => processSeed_inv collGet seeds max_depth s hs st hP)
    ⟨[], []⟩ (fun q hq => absurd hq (List.not_mem_nil q)) p hp

/-- C9: at `max_depth = 0` the claim fails: a document row sharing the
seed's normalized paragraph tokens under a different id is emitted, so the
result is the seed plus one extra passage, not exactly the deduplicated
seed set. -/
theorem C9_counterexample :
    (expand_with_descendants (fun _ => [dup_entry]) [dup_seed] 0).length = 2 ∧
    expand_with_descendants (fun _ => [dup_entry]) [dup_seed] 0 ≠ [dup_seed] := by
  have h : (expand_with_descendants (fun _ => [dup_entry]) [dup_seed] 0).length = 2 := by
    simp +decide [expand_with_descendants, processSeed, processEntry,
      load_afi_entries, dup_seed, dup_entry, mkExpanded, depthOf, paragraph_id,
      pyStripS]
  refine ⟨h, fun heq => ?_⟩
  rw [heq] at h
  simp at h

/-- C9 witness: the amended theorem applied to a seed with no document
rows: the only emitted passage is the seed itself. -/
theorem C9_witness :
    dup_seed ∈ expand_with_descendants (fun _ => []) [dup_seed] 0 ∧
    (dup_seed ∈ [dup_seed] ∨
      ExpandedWithin (fun _ => []) [dup_seed] 0 dup_seed) :=
  ⟨by decide, C9_amended (fun _ => []) [dup_seed] 0 dup_seed (by decide)⟩
